import Mathlib

/-!
Verification development for the f10server trajectory-based checkpoint/lap
detection engine.  JavaScript numbers are modelled as exact rationals (ℚ),
SQLite rows as Lean structures, and the callback-sequenced database logic as
pure state-passing functions.  Each definition is a shallow embedding of the
correspondingly named function in `src/server.js`; the `Part000` namespace
embeds the divergent geometry / admin variants found in `src/unnamed/part_000`.
JavaScript boolean-valued comparison expressions are embedded as decidable
propositions scrutinised by `if`.
-/

/-- A 3D point with real-valued (here: rational) coordinates. -/
structure Point3 where
  x : ℚ
  y : ℚ
  z : ℚ
deriving DecidableEq, Repr

/-- The epsilon used by `lineSegmentIntersectsAABB` in server.js
(`Math.abs(dir[axis]) < 1e-8`). -/
def eps : ℚ := 1 / 100000000

/-- Membership of a point in the closed box `[mn, mx]` (boundary counts). -/
def inBox (p mn mx : Point3) : Prop :=
  mn.x ≤ p.x ∧ p.x ≤ mx.x ∧ mn.y ≤ p.y ∧ p.y ≤ mx.y ∧ mn.z ≤ p.z ∧ p.z ≤ mx.z

instance (p mn mx : Point3) : Decidable (inBox p mn mx) :=
  inferInstanceAs (Decidable (_ ∧ _ ∧ _ ∧ _ ∧ _ ∧ _))

/-- The point at parameter `t` on the segment from `p1` to `p2`. -/
def segPoint (p1 p2 : Point3) (t : ℚ) : Point3 :=
  ⟨p1.x + t * (p2.x - p1.x), p1.y + t * (p2.y - p1.y), p1.z + t * (p2.z - p1.z)⟩

/-- The closed segment from `p1` to `p2` shares at least one point with the
closed box `[mn, mx]`. -/
def segMeetsBox (p1 p2 mn mx : Point3) : Prop :=
  ∃ t : ℚ, 0 ≤ t ∧ t ≤ 1 ∧ inBox (segPoint p1 p2 t) mn mx

/-- Component-wise `min ≤ max` well-formedness of a box. -/
def boxWf (mn mx : Point3) : Prop :=
  mn.x ≤ mx.x ∧ mn.y ≤ mx.y ∧ mn.z ≤ mx.z

instance (mn mx : Point3) : Decidable (boxWf mn mx) :=
  inferInstanceAs (Decidable (_ ∧ _ ∧ _))

/-- Clipping step shared by the non-degenerate axis case of the slab loop:
sort the two axis parameters (`if (t1 > t2) [t1, t2] = [t2, t1]`), intersect
with the running range, and fail when the range empties
(`if (tmin > tmax) return false`). -/
def slabClip (t1 t2 : ℚ) (tm : ℚ × ℚ) : Option (ℚ × ℚ) :=
  let s := if t2 < t1 then (t2, t1) else (t1, t2)
  let tmin := max tm.1 s.1
  let tmax := min tm.2 s.2
  if tmax < tmin then none else some (tmin, tmax)

/-- One iteration of the `for (let axis of ['x','y','z'])` loop body of
`lineSegmentIntersectsAABB` (server.js lines 91-102), over the running
parametric range `tm`; `none` models an early `return false`. -/
def slabAxisStep (p1c dirc minc maxc : ℚ) (tm : ℚ × ℚ) : Option (ℚ × ℚ) :=
  if |dirc| < eps then
    if p1c < minc ∨ maxc < p1c then none else some tm
  else
    slabClip ((minc - p1c) / dirc) ((maxc - p1c) / dirc) tm

/-- server.js `lineSegmentIntersectsAABB(p1, p2, aabbMin, aabbMax)`: slab
method with initial range `[0, 1]`; the early-return axis loop is modelled as
`Option` sequencing over the three axes. -/
def lineSegmentIntersectsAABB (p1 p2 aabbMin aabbMax : Point3) : Bool :=
  (((slabAxisStep p1.x (p2.x - p1.x) aabbMin.x aabbMax.x (0, 1)).bind
      (fun tm => slabAxisStep p1.y (p2.y - p1.y) aabbMin.y aabbMax.y tm)).bind
      (fun tm => slabAxisStep p1.z (p2.z - p1.z) aabbMin.z aabbMax.z tm)).isSome

namespace Part000

/-- part_000 `xor(val1, val2)`: `(val1 && !val2) || (!val1 && val2)`. -/
def xor (a b : Prop) : Prop := (a ∧ ¬b) ∨ (¬a ∧ b)

instance (a b : Prop) [Decidable a] [Decidable b] : Decidable (xor a b) :=
  inferInstanceAs (Decidable (_ ∨ _))

/-- part_000 point-in-AABB check used inside its `lineSegmentIntersectsAABB`
(`dot.x >= aabbMin.x && ... && dot.z <= aabbMax.z`). -/
def InAABB (dot aabbMin aabbMax : Point3) : Prop :=
  aabbMin.x ≤ dot.x ∧ aabbMin.y ≤ dot.y ∧ aabbMin.z ≤ dot.z ∧
  dot.x ≤ aabbMax.x ∧ dot.y ≤ aabbMax.y ∧ dot.z ≤ aabbMax.z

instance (dot aabbMin aabbMax : Point3) : Decidable (InAABB dot aabbMin aabbMax) :=
  inferInstanceAs (Decidable (_ ∧ _ ∧ _ ∧ _ ∧ _ ∧ _))

/-- Per-axis "dot will move towards AABB" disjunct of part_000
(`xor(dir.x < 0, !(dot.x >= aabbMin.x)) || xor(dir.x > 0, !(dot.x <= aabbMax.x)) || dir.x == 0`). -/
def TowardsAxis (dotc dirc minc maxc : ℚ) : Prop :=
  xor (dirc < 0) (¬(minc ≤ dotc)) ∨ xor (0 < dirc) (¬(dotc ≤ maxc)) ∨ dirc = 0

instance (dotc dirc minc maxc : ℚ) : Decidable (TowardsAxis dotc dirc minc maxc) :=
  inferInstanceAs (Decidable (_ ∨ _ ∨ _))

/-- Per-axis "mirrored dir will not move towards AABB" disjunct of part_000
(the same two xors, without the `dir == 0` escape). -/
def MirrorAwayAxis (dotc dirc minc maxc : ℚ) : Prop :=
  xor (dirc < 0) (¬(minc ≤ dotc)) ∨ xor (0 < dirc) (¬(dotc ≤ maxc))

instance (dotc dirc minc maxc : ℚ) : Decidable (MirrorAwayAxis dotc dirc minc maxc) :=
  inferInstanceAs (Decidable (_ ∨ _))

/-- The `for (let i = 0; i < 30; i++)` bisection-halving loop of part_000
`lineSegmentIntersectsAABB` (lines 98-123).  `i` is the loop counter (the
source forbids mirroring when `i == 0`); `fuel` is the number of remaining
iterations, `30 - i` at the top-level call, so recursion is structural. -/
def iterLoop (aabbMin aabbMax : Point3) : Point3 → Point3 → ℕ → ℕ → Bool
  | _, _, _, 0 => false
  | dot, dir, i, fuel + 1 =>
    if InAABB dot aabbMin aabbMax then true
    else if TowardsAxis dot.x dir.x aabbMin.x aabbMax.x ∧
            TowardsAxis dot.y dir.y aabbMin.y aabbMax.y ∧
            TowardsAxis dot.z dir.z aabbMin.z aabbMax.z then
      let dir' : Point3 := ⟨dir.x / 2, dir.y / 2, dir.z / 2⟩
      iterLoop aabbMin aabbMax ⟨dot.x + dir'.x, dot.y + dir'.y, dot.z + dir'.z⟩
        dir' (i + 1) fuel
    else if MirrorAwayAxis dot.x dir.x aabbMin.x aabbMax.x ∨
            MirrorAwayAxis dot.y dir.y aabbMin.y aabbMax.y ∨
            MirrorAwayAxis dot.z dir.z aabbMin.z aabbMax.z then
      false
    else if 0 < i then
      let dir' : Point3 := ⟨-dir.x / 2, -dir.y / 2, -dir.z / 2⟩
      iterLoop aabbMin aabbMax ⟨dot.x + dir'.x, dot.y + dir'.y, dot.z + dir'.z⟩
        dir' (i + 1) fuel
    else false

/-- part_000 `lineSegmentIntersectsAABB(p1, p2, aabbMin, aabbMax)`: returns
true if the end point is already inside, otherwise runs the 30-step iterative
bisection-halving approximation starting at `dot = p1`, `dir = p2 - p1`. -/
def lineSegmentIntersectsAABB (p1 p2 aabbMin aabbMax : Point3) : Bool :=
  if InAABB p2 aabbMin aabbMax then true
  else iterLoop aabbMin aabbMax p1 ⟨p2.x - p1.x, p2.y - p1.y, p2.z - p1.z⟩ 0 30

end Part000

/-! ### Checkpoint catalog and per-player race state -/

/-- A row of the `checkpoints` table (fields used by the detection engine). -/
structure Checkpoint where
  id : ℕ
  isStartFinish : Bool
  boxMin : Point3
  boxMax : Point3
deriving DecidableEq, Repr

/-- State touched by the websocket handler of server.js for a single tracked
player and its team: the `checkpoints` catalog, the player's
`player_checkpoints` rows (a set, by primary key), the team's `lap_count` and
`is_active` columns, whether a `player_teams` row exists for the player, the
number of raw `players` telemetry rows, and the player's
`player_positions_history` row. -/
structure ServerState where
  catalog : List Checkpoint
  collected : Finset ℕ
  teamLapCount : ℕ
  teamActive : Bool
  hasTeam : Bool
  rawCount : ℕ
  history : Option (Point3 × Point3)
deriving DecidableEq

/-- `COUNT(*) FROM checkpoints WHERE is_start_finish = 0` (total_count in
`checkPlayerCheckpoints`). -/
def regularTotal (cat : List Checkpoint) : ℕ :=
  (cat.filter (fun c => !c.isStartFinish)).length

/-- `COUNT(DISTINCT pc.checkpoint_id) ... JOIN checkpoints c ON
pc.checkpoint_id = c.id WHERE c.is_start_finish = 0`: the number of collected
ids that still name a regular checkpoint in the catalog. -/
def collectedRegularCount (cat : List Checkpoint) (col : Finset ℕ) : ℕ :=
  (col.filter (fun i => (cat.any (fun c => c.id == i && !c.isStartFinish)) = true)).card

/-- server.js `checkPlayerCheckpoints`: does the player hold at least as many
still-catalogued regular checkpoints as there are regular checkpoints
(`collectedCount >= totalCount`)? -/
def checkPlayerCheckpoints (cat : List Checkpoint) (col : Finset ℕ) : Bool :=
  regularTotal cat ≤ collectedRegularCount cat col

/-- server.js `processCheckpointCrossing` (lines 137-203): look the checkpoint
up by id (`none` models the `Checkpoint not found` error callback); for a
start/finish checkpoint either complete a lap — `UPDATE teams SET lap_count =
lap_count + 1, is_active = CASE WHEN lap_count + 1 >= 20 THEN 0 ELSE 1 END`,
then `DELETE FROM player_checkpoints` — or report no lap; for a regular
checkpoint `INSERT OR IGNORE INTO player_checkpoints`.  The returned Bool is
the `lapCompleted` callback value. -/
def processCheckpointCrossing (st : ServerState) (cid : ℕ) :
    Option (ServerState × Bool) :=
  match st.catalog.find? (fun c => c.id == cid) with
  | none => none
  | some checkpoint =>
    if checkpoint.isStartFinish then
      if checkPlayerCheckpoints st.catalog st.collected then
        some ({ st with
                  teamLapCount := st.teamLapCount + 1,
                  teamActive := if 20 ≤ st.teamLapCount + 1 then false else true,
                  collected := ∅ }, true)
      else
        some (st, false)
    else
      some ({ st with collected := insert cid st.collected }, false)

/-- The per-detected-crossing body of the websocket handler's checkpoint loop
(server.js lines 312-334): skip if a `player_checkpoints` row already exists
(duplicate-crossing suppression), otherwise run `processCheckpointCrossing`;
an error leaves the state as is. -/
def crossingStep (st : ServerState) (cid : ℕ) : ServerState :=
  if cid ∈ st.collected then st
  else
    match processCheckpointCrossing st cid with
    | none => st
    | some (st', _) => st'

/-- A detected crossing as processed by the engine end to end: the websocket
handler only reaches the crossing loop when the team lookup
(`... WHERE pt.player_uuid = ? AND t.is_active = 1`, lines 244-256) succeeds,
i.e. when the player has a team and that team is active. -/
def handleCrossing (st : ServerState) (cid : ℕ) : ServerState :=
  if st.hasTeam && st.teamActive then crossingStep st cid else st

/-- Engine and admin operations relevant to the collected-set / team claims:
a detected crossing, `POST /api/checkpoints` (append to the catalog), and
`DELETE /api/checkpoints/:id` (remove from the catalog only — the
`player_checkpoints` rows referencing the id are not touched). -/
inductive Op where
  | crossing (cid : ℕ)
  | createCheckpoint (c : Checkpoint)
  | deleteCheckpoint (cid : ℕ)
deriving DecidableEq, Repr

/-- Apply one operation to the state. -/
def applyOp (st : ServerState) : Op → ServerState
  | Op.crossing cid => handleCrossing st cid
  | Op.createCheckpoint c => { st with catalog := st.catalog ++ [c] }
  | Op.deleteCheckpoint cid =>
      { st with catalog := st.catalog.filter (fun c => !(c.id == cid)) }

/-- Apply a list of operations in order. -/
def runOps (st : ServerState) : List Op → ServerState :=
  List.foldl applyOp st

/-- A row of the `teams` table as projected by `GET /api/leaderboard`. -/
structure TeamRow where
  tid : ℕ
  lapCount : ℕ
  isActive : Bool
deriving DecidableEq, Repr

/-- `GET /api/leaderboard` row selection: `WHERE t.is_active = 1`. -/
def leaderboardRows (ts : List TeamRow) : List TeamRow :=
  ts.filter (fun t => t.isActive)

/-! ### Trajectory window (player_positions_history) -/

/-- The `INSERT OR REPLACE INTO player_positions_history` write (server.js
lines 272-291): with an existing row, old current shifts into previous and the
new position becomes current; for a first observation both slots are set to
the new position. -/
def updateHistory : Option (Point3 × Point3) → Point3 → Point3 × Point3
  | some h, pos => (h.2, pos)
  | none, pos => (pos, pos)

/-- The segment fed to the crossing tests (server.js lines 294-306): only when
a history row already existed, and then from `posRow.prev_*` — the previous
slot of the row read *before* this sample's shift — to the new position. -/
def crossingSegment : Option (Point3 × Point3) → Point3 → Option (Point3 × Point3)
  | some h, pos => some (h.1, pos)
  | none, _ => none

/-- The history row after a sequence of observed positions. -/
def runHistory : Option (Point3 × Point3) → List Point3 → Option (Point3 × Point3)
  | h, [] => h
  | h, p :: ps => runHistory (some (updateHistory h p)) ps

/-! ### Telemetry samples, validation and the websocket handler -/

/-- A JSON vector whose members may each be absent (the handler never
validates them). -/
structure PartialVec3 where
  x : Option ℚ
  y : Option ℚ
  z : Option ℚ
deriving DecidableEq, Repr

/-- An inbound telemetry message.  `none` models an absent (or JSON-null)
field; `some` a present value of the expected type. -/
structure Sample where
  uuid : Option String
  timestamp : Option ℤ
  position : Option PartialVec3
  velocity : Option PartialVec3
  yaw : Option ℚ
  pitch : Option ℚ
deriving DecidableEq, Repr

/-- JavaScript truthiness of the string field `playerData.UUID`: absent, null
and the empty string are falsy. -/
def truthyStr : Option String → Bool
  | none => false
  | some s => !(s == "")

/-- JavaScript truthiness of the numeric field `playerData.timestamp`:
absent, null and 0 are falsy. -/
def truthyInt : Option ℤ → Bool
  | none => false
  | some n => !(n == 0)

/-- The validation of server.js (lines 216-217): `!playerData.UUID ||
!playerData.timestamp || !playerData.position || !playerData.velocity ||
playerData.yaw === undefined || playerData.pitch === undefined` rejects;
objects are truthy whenever present, and yaw/pitch are only checked for
definedness. -/
def validSample (s : Sample) : Bool :=
  truthyStr s.uuid && truthyInt s.timestamp && s.position.isSome &&
    s.velocity.isSome && s.yaw.isSome && s.pitch.isSome

/-- The position of a sample when all three members are present. -/
def fullPos (s : Sample) : Option Point3 :=
  match s.position with
  | some ⟨some a, some b, some c⟩ => some ⟨a, b, c⟩
  | _ => none

/-- Acknowledgments sent back on the websocket. -/
inductive Ack where
  | invalidFormat
  | successNoTeam
  | successProcessed
deriving DecidableEq, Repr

/-- The crossing-detection loop of the websocket handler (server.js lines
295-335): for each catalogued checkpoint in order, test the segment against
its box and on a hit run the duplicate check plus `processCheckpointCrossing`. -/
def detectLoop (st : ServerState) (prevPos currPos : Point3) : ServerState :=
  st.catalog.foldl
    (fun acc checkpoint =>
      if lineSegmentIntersectsAABB prevPos currPos checkpoint.boxMin checkpoint.boxMax then
        crossingStep acc checkpoint.id
      else acc)
    st

/-- The websocket `message` handler of server.js (lines 211-346): validate
(reject with no state change on failure), insert the raw telemetry row, look
up an active team (on failure acknowledge success with the
`no team assigned` note and stop), then update the position history, and — if
a history row already existed — run the crossing loop on the segment from its
stale previous slot to the new position.  Samples whose position members are
not all present are stored but skip the trajectory branch (their float
arithmetic is outside this rational embedding). -/
def handleSample (st : ServerState) (s : Sample) : ServerState × Ack :=
  if validSample s = false then (st, Ack.invalidFormat)
  else
    let st1 := { st with rawCount := st.rawCount + 1 }
    if st.hasTeam && st.teamActive then
      match fullPos s with
      | some pos =>
        let st2 := { st1 with history := some (updateHistory st1.history pos) }
        match crossingSegment st1.history pos with
        | some seg => (detectLoop st2 seg.1 seg.2, Ack.successProcessed)
        | none => (st2, Ack.successProcessed)
      | none => (st1, Ack.successProcessed)
    else (st1, Ack.successNoTeam)

/-! ### Administrative box construction -/

/-- Coordinates stored by server.js `POST /api/checkpoints` (lines 533-536):
exactly the caller's values, in the caller's order. -/
def postCheckpointBox (mnx mny mnz mxx mxy mxz : ℚ) : Point3 × Point3 :=
  (⟨mnx, mny, mnz⟩, ⟨mxx, mxy, mxz⟩)

namespace Part000

/-- Coordinates stored by part_000 `POST /api/checkpoints` (line 544):
`min(min_c, max_c + 1)` and `max(min_c, max_c + 1)` per component. -/
def postCheckpointBox (mnx mny mnz mxx mxy mxz : ℚ) : Point3 × Point3 :=
  (⟨min mnx (mxx + 1), min mny (mxy + 1), min mnz (mxz + 1)⟩,
   ⟨max mnx (mxx + 1), max mny (mxy + 1), max mnz (mxz + 1)⟩)

/-- Coordinates stored by part_000 `PUT /api/checkpoints/:id` (line 570):
mins as supplied, maxes as supplied plus one, no swap. -/
def putCheckpointBox (mnx mny mnz mxx mxy mxz : ℚ) : Point3 × Point3 :=
  (⟨mnx, mny, mnz⟩, ⟨mxx + 1, mxy + 1, mxz + 1⟩)

end Part000

/-- The ids of the regular (non-start/finish) checkpoints of a catalog, as a
set. -/
def regularIds (cat : List Checkpoint) : Finset ℕ :=
  ((cat.filter (fun c => !c.isStartFinish)).map (fun c => c.id)).toFinset

/-- A direction component on which the slab test is exact: either exactly
zero, or of magnitude at least the code's epsilon. -/
def axisCond (d : ℚ) : Prop := d = 0 ∨ eps ≤ |d|

instance (d : ℚ) : Decidable (axisCond d) :=
  inferInstanceAs (Decidable (_ ∨ _))

/-- The coordinate of the segment point at parameter `t` lies inside the slab
`[minc, maxc]` on one axis. -/
def axisInSlab (p1c dirc minc maxc t : ℚ) : Prop :=
  minc ≤ p1c + t * dirc ∧ p1c + t * dirc ≤ maxc

/-! ### Claim theorems -/

lemma mem_regularIds_of_find? {cat : List Checkpoint} {cid : ℕ} {cp : Checkpoint}
    (hfind : cat.find? (fun c => c.id == cid) = some cp)
    (hreg : cp.isStartFinish = false) : cid ∈ regularIds cat := by
  have hmem : cp ∈ cat := List.mem_of_find?_eq_some hfind
  have hid : cp.id = cid := by
    have := List.find?_some hfind
    simpa using this
  subst hid
  simp only [regularIds, List.mem_toFinset, List.mem_map]
  exact ⟨cp, List.mem_filter.mpr ⟨hmem, by simp [hreg]⟩, rfl⟩

lemma regularIds_card_le (cat : List Checkpoint) :
    (regularIds cat).card ≤ regularTotal cat := by
  calc (regularIds cat).card
      ≤ ((cat.filter (fun c => !c.isStartFinish)).map (fun c => c.id)).length :=
        List.toFinset_card_le _
    _ = regularTotal cat := by simp [regularTotal]

lemma collected_subset_card_le {st : ServerState}
    (hsub : st.collected ⊆ regularIds st.catalog) :
    st.collected.card ≤ regularTotal st.catalog :=
  le_trans (Finset.card_le_card hsub) (regularIds_card_le st.catalog)

lemma crossingStep_preserves_subset {st : ServerState} {cid : ℕ}
    (hsub : st.collected ⊆ regularIds st.catalog) :
    (crossingStep st cid).collected ⊆ regularIds (crossingStep st cid).catalog := by
  unfold crossingStep
  split
  · exact hsub
  · rcases hpc : processCheckpointCrossing st cid with _ | stb
    · exact hsub
    · unfold processCheckpointCrossing at hpc
      rcases hfind : st.catalog.find? (fun c => c.id == cid) with _ | cp
      · rw [hfind] at hpc; cases hpc
      · rw [hfind] at hpc
        by_cases hsf : cp.isStartFinish = true
        · simp only [hsf, if_true] at hpc
          by_cases hall : checkPlayerCheckpoints st.catalog st.collected = true
          · rw [if_pos hall] at hpc
            cases hpc
            intro a ha
            simp at ha
          · rw [if_neg hall] at hpc
            cases hpc
            exact hsub
        · have hsf' : cp.isStartFinish = false := by
            cases h : cp.isStartFinish
            · rfl
            · exact absurd h hsf
          simp only [hsf', Bool.false_eq_true, if_false] at hpc
          cases hpc
          exact Finset.insert_subset_iff.mpr ⟨mem_regularIds_of_find? hfind hsf', hsub⟩

lemma handleCrossing_preserves_subset {st : ServerState} {cid : ℕ}
    (hsub : st.collected ⊆ regularIds st.catalog) :
    (handleCrossing st cid).collected ⊆ regularIds (handleCrossing st cid).catalog := by
  unfold handleCrossing
  split
  · exact crossingStep_preserves_subset hsub
  · exact hsub

/-- C2: when an entity crosses the start/finish checkpoint,
`processCheckpointCrossing` returns lap-completed and clears the collected set
exactly when the number of distinct collected regular checkpoints still in the
current catalog reaches the current number of regular checkpoints; otherwise
it returns false and leaves the state unchanged. -/
theorem startFinish_crossing_lap_iff (st : ServerState) (cid : ℕ) (cp : Checkpoint)
    (hfind : st.catalog.find? (fun c => c.id == cid) = some cp)
    (hsf : cp.isStartFinish = true) :
    (regularTotal st.catalog ≤ collectedRegularCount st.catalog st.collected →
      ∃ st', processCheckpointCrossing st cid = some (st', true) ∧
        st'.collected = ∅ ∧ st'.catalog = st.catalog) ∧
    (collectedRegularCount st.catalog st.collected < regularTotal st.catalog →
      processCheckpointCrossing st cid = some (st, false)) := by
  have hrw : processCheckpointCrossing st cid =
      (if checkPlayerCheckpoints st.catalog st.collected then
        some ({ st with
                  teamLapCount := st.teamLapCount + 1,
                  teamActive := if 20 ≤ st.teamLapCount + 1 then false else true,
                  collected := ∅ }, true)
      else some (st, false)) := by
    unfold processCheckpointCrossing
    rw [hfind]
    simp only [hsf, if_true]
  constructor
  · intro h
    rw [hrw, if_pos (by simp [checkPlayerCheckpoints, h])]
    exact ⟨_, rfl, rfl, rfl⟩
  · intro h
    rw [hrw, if_neg (by simp only [checkPlayerCheckpoints, decide_eq_true_eq]; omega)]

/-- C2 witness: a concrete start/finish crossing with the single remaining
regular checkpoint collected completes a lap and clears the set. -/
theorem startFinish_crossing_lap_iff_witness :
    ∃ st', processCheckpointCrossing
        ⟨[⟨1, false, ⟨0,0,0⟩, ⟨1,1,1⟩⟩, ⟨2, true, ⟨4,4,4⟩, ⟨5,5,5⟩⟩],
          {1}, 0, true, true, 0, none⟩ 2 = some (st', true) ∧
      st'.collected = ∅ ∧
      st'.catalog = [⟨1, false, ⟨0,0,0⟩, ⟨1,1,1⟩⟩, ⟨2, true, ⟨4,4,4⟩, ⟨5,5,5⟩⟩] :=
  (startFinish_crossing_lap_iff
      ⟨[⟨1, false, ⟨0,0,0⟩, ⟨1,1,1⟩⟩, ⟨2, true, ⟨4,4,4⟩, ⟨5,5,5⟩⟩],
        {1}, 0, true, true, 0, none⟩ 2 ⟨2, true, ⟨4,4,4⟩, ⟨5,5,5⟩⟩
      (by decide) (by decide)).1 (by decide)

/-- C3: re-processing a regular checkpoint the entity already collected is a
no-op: the state (in particular the collected set and its size) is unchanged
and no lap completion is reported. -/
theorem alreadyCollected_crossing_noop (st : ServerState) (cid : ℕ) (cp : Checkpoint)
    (hfind : st.catalog.find? (fun c => c.id == cid) = some cp)
    (hreg : cp.isStartFinish = false)
    (hmem : cid ∈ st.collected) :
    processCheckpointCrossing st cid = some (st, false) := by
  unfold processCheckpointCrossing
  rw [hfind]
  simp only [hreg, Bool.false_eq_true, if_false]
  rw [Finset.insert_eq_self.mpr hmem]

/-- C3 witness: re-crossing the already collected checkpoint 5 leaves the
concrete state untouched and reports no lap. -/
theorem alreadyCollected_crossing_noop_witness :
    processCheckpointCrossing
        ⟨[⟨5, false, ⟨0,0,0⟩, ⟨1,1,1⟩⟩], {5}, 3, true, true, 0, none⟩ 5 =
      some (⟨[⟨5, false, ⟨0,0,0⟩, ⟨1,1,1⟩⟩], {5}, 3, true, true, 0, none⟩, false) :=
  alreadyCollected_crossing_noop
    ⟨[⟨5, false, ⟨0,0,0⟩, ⟨1,1,1⟩⟩], {5}, 3, true, true, 0, none⟩ 5
    ⟨5, false, ⟨0,0,0⟩, ⟨1,1,1⟩⟩ (by decide) (by decide) (by decide)

lemma collectedRegularCount_le (cat : List Checkpoint) (col : Finset ℕ) :
    collectedRegularCount cat col ≤ regularTotal cat := by
  have hsub : col.filter
      (fun i => (cat.any (fun c => c.id == i && !c.isStartFinish)) = true) ⊆
      regularIds cat := by
    intro i hi
    rw [Finset.mem_filter] at hi
    rcases hi with ⟨-, hany⟩
    rw [List.any_eq_true] at hany
    rcases hany with ⟨c, hc, hcond⟩
    rw [Bool.and_eq_true, beq_iff_eq] at hcond
    rcases hcond with ⟨hid, hsf⟩
    subst hid
    simp only [regularIds, List.mem_toFinset, List.mem_map]
    exact ⟨c, List.mem_filter.mpr ⟨hc, hsf⟩, rfl⟩
  calc collectedRegularCount cat col ≤ (regularIds cat).card :=
        Finset.card_le_card hsub
    _ ≤ regularTotal cat := regularIds_card_le cat

/-- C7 (amended): while the collected set only holds ids of currently
catalogued regular checkpoints — an invariant preserved by every crossing and
by checkpoint creation — its size is bounded by the current number of regular
checkpoints; and regardless of deletions, the number of collected ids still
catalogued as regular never exceeds that count. -/
theorem collected_bound (st : ServerState) (cid : ℕ) (c : Checkpoint)
    (hsub : st.collected ⊆ regularIds st.catalog) :
    (handleCrossing st cid).collected ⊆ regularIds (handleCrossing st cid).catalog ∧
    (applyOp st (Op.createCheckpoint c)).collected ⊆
      regularIds (applyOp st (Op.createCheckpoint c)).catalog ∧
    st.collected.card ≤ regularTotal st.catalog ∧
    collectedRegularCount st.catalog st.collected ≤ regularTotal st.catalog := by
  refine ⟨handleCrossing_preserves_subset hsub, ?_, collected_subset_card_le hsub,
    collectedRegularCount_le st.catalog st.collected⟩
  intro i hi
  have hmem := hsub hi
  simp only [applyOp]
  simp only [regularIds, List.filter_append, List.map_append, List.mem_toFinset,
    List.mem_append] at hmem ⊢
  exact Or.inl (by simpa [regularIds] using hmem)

/-- C7 witness: the invariant conclusions at a concrete state with one
collected regular checkpoint. -/
theorem collected_bound_witness :
    ({1} : Finset ℕ) ⊆ regularIds [⟨1, false, ⟨0,0,0⟩, ⟨1,1,1⟩⟩] ∧
    (⟨[⟨1, false, ⟨0,0,0⟩, ⟨1,1,1⟩⟩], {1}, 0, true, true, 0, none⟩ :
        ServerState).collected.card ≤
      regularTotal [⟨1, false, ⟨0,0,0⟩, ⟨1,1,1⟩⟩] :=
  ⟨by decide,
    (collected_bound ⟨[⟨1, false, ⟨0,0,0⟩, ⟨1,1,1⟩⟩], {1}, 0, true, true, 0, none⟩
      1 ⟨2, false, ⟨0,0,0⟩, ⟨1,1,1⟩⟩ (by decide)).2.2.1⟩

/-- C7 counterexample: deleting an already-collected regular checkpoint leaves
the collected set larger than the number of regular checkpoints remaining in
the catalog, so the claimed bound fails after a deletion. -/
theorem collected_bound_delete_counterexample :
    regularTotal (runOps
        ⟨[⟨1, false, ⟨0,0,0⟩, ⟨1,1,1⟩⟩, ⟨2, false, ⟨2,2,2⟩, ⟨3,3,3⟩⟩,
          ⟨3, true, ⟨4,4,4⟩, ⟨5,5,5⟩⟩], ∅, 0, true, true, 0, none⟩
        [Op.crossing 1, Op.crossing 2, Op.deleteCheckpoint 1]).catalog <
      (runOps
        ⟨[⟨1, false, ⟨0,0,0⟩, ⟨1,1,1⟩⟩, ⟨2, false, ⟨2,2,2⟩, ⟨3,3,3⟩⟩,
          ⟨3, true, ⟨4,4,4⟩, ⟨5,5,5⟩⟩], ∅, 0, true, true, 0, none⟩
        [Op.crossing 1, Op.crossing 2, Op.deleteCheckpoint 1]).collected.card := by
  decide

/-- C6: a lap completion that reaches the cap of 20 laps deactivates the team;
a crossing for a deactivated team is not processed at all (no further lap
credit); deactivation is monotonic under every engine/admin operation
modelled; and the leaderboard only lists active teams. -/
theorem lapCap_deactivation :
    (∀ st cid st', processCheckpointCrossing st cid = some (st', true) →
      20 ≤ st'.teamLapCount → st'.teamActive = false) ∧
    (∀ st cid, st.teamActive = false → handleCrossing st cid = st) ∧
    (∀ st ops, st.teamActive = false → (runOps st ops).teamActive = false) ∧
    (∀ ts t, t ∈ leaderboardRows ts → t.isActive = true) := by
  have h2 : ∀ (st : ServerState) cid, st.teamActive = false →
      handleCrossing st cid = st := by
    intro st cid h
    unfold handleCrossing
    rw [if_neg (by simp [h])]
  refine ⟨?_, h2, ?_, ?_⟩
  · intro st cid st' hpc hcap
    unfold processCheckpointCrossing at hpc
    rcases hfind : st.catalog.find? (fun c => c.id == cid) with _ | cp
    · rw [hfind] at hpc; cases hpc
    · rw [hfind] at hpc
      by_cases hsf : cp.isStartFinish = true
      · simp only [hsf, if_true] at hpc
        by_cases hall : checkPlayerCheckpoints st.catalog st.collected = true
        · rw [if_pos hall] at hpc
          rw [Option.some_inj, Prod.mk.injEq] at hpc
          rcases hpc with ⟨hst, -⟩
          subst hst
          simp only at hcap ⊢
          rw [if_pos hcap]
        · rw [if_neg hall] at hpc
          rw [Option.some_inj, Prod.mk.injEq] at hpc
          cases hpc.2
      · have hsf' : cp.isStartFinish = false := by
          cases h : cp.isStartFinish
          · rfl
          · exact absurd h hsf
        simp only [hsf', Bool.false_eq_true, if_false] at hpc
        rw [Option.some_inj, Prod.mk.injEq] at hpc
        cases hpc.2
  · intro st ops h
    induction ops generalizing st with
    | nil => exact h
    | cons op ops ih =>
      show (runOps (applyOp st op) ops).teamActive = false
      apply ih
      cases op with
      | crossing cid => rw [applyOp, h2 st cid h]; exact h
      | createCheckpoint c => exact h
      | deleteCheckpoint cid => exact h
  · intro ts t ht
    exact (List.mem_filter.mp ht).2

/-- C6 witness: a deactivated concrete team stays deactivated across a run of
crossings and admin operations, and a concrete crossing is a no-op for it. -/
theorem lapCap_deactivation_witness :
    (runOps ⟨[⟨1, false, ⟨0,0,0⟩, ⟨1,1,1⟩⟩], ∅, 20, false, true, 0, none⟩
        [Op.crossing 1, Op.createCheckpoint ⟨2, false, ⟨0,0,0⟩, ⟨1,1,1⟩⟩,
          Op.crossing 2]).teamActive = false ∧
    handleCrossing ⟨[⟨1, false, ⟨0,0,0⟩, ⟨1,1,1⟩⟩], ∅, 20, false, true, 0, none⟩ 1 =
      ⟨[⟨1, false, ⟨0,0,0⟩, ⟨1,1,1⟩⟩], ∅, 20, false, true, 0, none⟩ :=
  ⟨lapCap_deactivation.2.2.1
      ⟨[⟨1, false, ⟨0,0,0⟩, ⟨1,1,1⟩⟩], ∅, 20, false, true, 0, none⟩
      [Op.crossing 1, Op.createCheckpoint ⟨2, false, ⟨0,0,0⟩, ⟨1,1,1⟩⟩,
        Op.crossing 2] rfl,
    lapCap_deactivation.2.1
      ⟨[⟨1, false, ⟨0,0,0⟩, ⟨1,1,1⟩⟩], ∅, 20, false, true, 0, none⟩ 1 rfl⟩

/-- C4: the part_000 iterative bisection-halving test is not equivalent to the
exact geometric predicate: a concrete well-formed thin box and a long segment
passing through it yield a false negative (here the loop even exits on its
mirror test after two iterations). -/
theorem iterative_not_equivalent_to_slab :
    ∃ p1 p2 aabbMin aabbMax : Point3,
      boxWf aabbMin aabbMax ∧ segMeetsBox p1 p2 aabbMin aabbMax ∧
      Part000.lineSegmentIntersectsAABB p1 p2 aabbMin aabbMax = false := by
  refine ⟨⟨0,0,0⟩, ⟨1,1/4,0⟩, ⟨1/20,-10,-1⟩, ⟨1/10,10,1⟩,
    by norm_num [boxWf], ⟨1/16, by norm_num, by norm_num,
      by norm_num [inBox, segPoint]⟩, ?_⟩
  unfold Part000.lineSegmentIntersectsAABB
  rw [if_neg (by norm_num [Part000.InAABB])]
  norm_num only []
  rw [Part000.iterLoop]
  rw [if_neg (by norm_num [Part000.InAABB])]
  rw [if_pos (by norm_num [Part000.TowardsAxis, Part000.xor])]
  norm_num only []
  rw [Part000.iterLoop]
  rw [if_neg (by norm_num [Part000.InAABB])]
  rw [if_neg (by norm_num [Part000.TowardsAxis, Part000.xor])]
  rw [if_pos (by norm_num [Part000.MirrorAwayAxis, Part000.xor])]

/-- C5: evaluation of the trajectory logic at concrete samples p1, p2, p3.
The stored window correctly shifts (after the three samples it holds p2, p3),
and the first sample yields no segment; but the crossing test of the third
sample uses the segment from p1 — the stale previous slot read before the
shift — to p3, not the previous-to-current segment p2 → p3 that the window
shift itself defines. -/
theorem trajectory_uses_stale_prev :
    runHistory none [⟨0,0,0⟩, ⟨10,0,0⟩, ⟨0,0,1⟩] = some (⟨10,0,0⟩, ⟨0,0,1⟩) ∧
    crossingSegment none ⟨0,0,0⟩ = none ∧
    crossingSegment (runHistory none [⟨0,0,0⟩, ⟨10,0,0⟩]) ⟨0,0,1⟩ =
      some (⟨0,0,0⟩, ⟨0,0,1⟩) ∧
    crossingSegment (runHistory none [⟨0,0,0⟩, ⟨10,0,0⟩]) ⟨0,0,1⟩ ≠
      some (⟨10,0,0⟩, ⟨0,0,1⟩) := by
  decide

/-- C8 counterexample: server.js `POST /api/checkpoints` stores inverted
corners unchanged, so the resulting box violates component-wise min ≤ max. -/
theorem checkpoint_box_counterexample :
    ¬ boxWf (postCheckpointBox 5 0 0 2 1 1).1 (postCheckpointBox 5 0 0 2 1 1).2 := by
  decide

/-- C8 (amended): server.js creation stores the six coordinates exactly as
supplied, so the stored box is well-formed iff the caller ordered the corners;
the part_000 create variant does enforce min ≤ max for every input (by taking
component-wise min/max of the supplied min and max+1); the part_000 update
variant stores min as supplied and max+1, so it too is well-formed only when
the caller (almost) ordered the corners. -/
theorem checkpoint_box_construction :
    (∀ mnx mny mnz mxx mxy mxz : ℚ,
      boxWf (Part000.postCheckpointBox mnx mny mnz mxx mxy mxz).1
        (Part000.postCheckpointBox mnx mny mnz mxx mxy mxz).2) ∧
    (∀ mnx mny mnz mxx mxy mxz : ℚ,
      boxWf (postCheckpointBox mnx mny mnz mxx mxy mxz).1
        (postCheckpointBox mnx mny mnz mxx mxy mxz).2 ↔
      (mnx ≤ mxx ∧ mny ≤ mxy ∧ mnz ≤ mxz)) ∧
    (∀ mnx mny mnz mxx mxy mxz : ℚ,
      boxWf (Part000.putCheckpointBox mnx mny mnz mxx mxy mxz).1
        (Part000.putCheckpointBox mnx mny mnz mxx mxy mxz).2 ↔
      (mnx ≤ mxx + 1 ∧ mny ≤ mxy + 1 ∧ mnz ≤ mxz + 1)) := by
  refine ⟨?_, ?_, ?_⟩ <;> intro mnx mny mnz mxx mxy mxz
  · exact ⟨min_le_max, min_le_max, min_le_max⟩
  · exact Iff.rfl
  · exact Iff.rfl

/-- C9 counterexample: a valid sample for a player with no team assignment is
acknowledged with the no-team success note but is *not* processed for
trajectory or checkpoint purposes: the position-history row and the collected
set stay untouched (only the raw telemetry row is stored), whereas the same
sample with a team present does update the trajectory window. -/
theorem noTeam_counterexample :
    (handleSample ⟨[⟨7, false, ⟨2,-1,-1⟩, ⟨3,1,1⟩⟩], ∅, 0, true, false, 0, none⟩
        ⟨some "p", some 1, some ⟨some 5, some 0, some 0⟩,
          some ⟨some 0, some 0, some 0⟩, some 0, some 0⟩).1.history = none ∧
    (handleSample ⟨[⟨7, false, ⟨2,-1,-1⟩, ⟨3,1,1⟩⟩], ∅, 0, true, false, 0, none⟩
        ⟨some "p", some 1, some ⟨some 5, some 0, some 0⟩,
          some ⟨some 0, some 0, some 0⟩, some 0, some 0⟩).1.collected = ∅ ∧
    (handleSample ⟨[⟨7, false, ⟨2,-1,-1⟩, ⟨3,1,1⟩⟩], ∅, 0, true, false, 0, none⟩
        ⟨some "p", some 1, some ⟨some 5, some 0, some 0⟩,
          some ⟨some 0, some 0, some 0⟩, some 0, some 0⟩).2 = Ack.successNoTeam ∧
    (handleSample ⟨[⟨7, false, ⟨2,-1,-1⟩, ⟨3,1,1⟩⟩], ∅, 0, true, true, 0, none⟩
        ⟨some "p", some 1, some ⟨some 5, some 0, some 0⟩,
          some ⟨some 0, some 0, some 0⟩, some 0, some 0⟩).1.history =
      some (⟨5,0,0⟩, ⟨5,0,0⟩) := by
  decide

/-- C9 (amended): a valid sample for a player with no team row is stored in
the raw telemetry log and acknowledged as success with the qualifying no-team
note, but trajectory-window update, checkpoint collection and lap counting
are all skipped. -/
theorem noTeam_skips_processing (st : ServerState) (s : Sample)
    (hv : validSample s = true) (ht : st.hasTeam = false) :
    handleSample st s =
      ({ st with rawCount := st.rawCount + 1 }, Ack.successNoTeam) := by
  unfold handleSample
  rw [if_neg (by simp [hv])]
  rw [if_neg (by simp [ht])]

/-- C9 amended witness: the no-team branch at a concrete state and sample. -/
theorem noTeam_skips_processing_witness :
    handleSample ⟨[], ∅, 3, true, false, 4, some (⟨1,2,3⟩, ⟨4,5,6⟩)⟩
        ⟨some "p", some 1, some ⟨some 5, some 0, some 0⟩,
          some ⟨some 0, some 0, some 0⟩, some 0, some 0⟩ =
      (⟨[], ∅, 3, true, false, 5, some (⟨1,2,3⟩, ⟨4,5,6⟩)⟩, Ack.successNoTeam) :=
  noTeam_skips_processing ⟨[], ∅, 3, true, false, 4, some (⟨1,2,3⟩, ⟨4,5,6⟩)⟩
    ⟨some "p", some 1, some ⟨some 5, some 0, some 0⟩,
      some ⟨some 0, some 0, some 0⟩, some 0, some 0⟩ (by decide) rfl

/-- C10: the validation treats any falsy UUID or timestamp as missing (so
timestamp 0 and the empty-string UUID are rejected), rejection acknowledges an
error without any state mutation, while yaw 0 passes (yaw/pitch are only
checked for definedness) and a position whose x member is absent also passes
(members of position/velocity are not validated). -/
theorem validation_treats_falsy_as_missing :
    (∀ s : Sample, s.timestamp = some 0 → validSample s = false) ∧
    (∀ s : Sample, s.uuid = some "" → validSample s = false) ∧
    (∀ (st : ServerState) (s : Sample), validSample s = false →
      handleSample st s = (st, Ack.invalidFormat)) ∧
    validSample ⟨some "p", some 1, some ⟨some 0, some 0, some 0⟩,
      some ⟨some 0, some 0, some 0⟩, some 0, some 0⟩ = true ∧
    validSample ⟨some "p", some 1, some ⟨none, some 0, some 0⟩,
      some ⟨some 0, some 0, some 0⟩, some 1, some 1⟩ = true := by
  refine ⟨?_, ?_, ?_, by decide, by decide⟩
  · intro s h
    simp [validSample, truthyInt, h]
  · intro s h
    simp [validSample, truthyStr, h]
  · intro st s h
    unfold handleSample
    rw [if_pos h]

/-- C10 witness: a timestamp-0 sample is invalid, and a concrete empty-UUID
message is rejected with no state change. -/
theorem validation_treats_falsy_as_missing_witness :
    validSample ⟨some "p", some 0, some ⟨some 0, some 0, some 0⟩,
      some ⟨some 0, some 0, some 0⟩, some 0, some 0⟩ = false ∧
    handleSample ⟨[], ∅, 0, true, true, 0, none⟩
        ⟨some "", some 1, some ⟨some 0, some 0, some 0⟩,
          some ⟨some 0, some 0, some 0⟩, some 0, some 0⟩ =
      (⟨[], ∅, 0, true, true, 0, none⟩, Ack.invalidFormat) :=
  ⟨validation_treats_falsy_as_missing.1 _ rfl,
    validation_treats_falsy_as_missing.2.2.1 _ _
      (validation_treats_falsy_as_missing.2.1 _ rfl)⟩

/-! ### Exactness of the slab method -/

lemma sortPair_eq (t1 t2 : ℚ) :
    (if t2 < t1 then (t2, t1) else (t1, t2)) = (min t1 t2, max t1 t2) := by
  rcases le_or_lt t1 t2 with h | h
  · rw [if_neg (not_lt.mpr h), min_eq_left h, max_eq_right h]
  · rw [if_pos h, min_eq_right h.le, max_eq_left h.le]

lemma slabClip_eq (t1 t2 a b : ℚ) :
    slabClip t1 t2 (a, b) =
      if min b (max t1 t2) < max a (min t1 t2) then none
      else some (max a (min t1 t2), min b (max t1 t2)) := by
  simp only [slabClip, sortPair_eq]

lemma axis_param_iff {dirc minc maxc : ℚ} (hd : dirc ≠ 0) (hbox : minc ≤ maxc)
    (p1c t : ℚ) :
    (min ((minc - p1c) / dirc) ((maxc - p1c) / dirc) ≤ t ∧
      t ≤ max ((minc - p1c) / dirc) ((maxc - p1c) / dirc)) ↔
    axisInSlab p1c dirc minc maxc t := by
  unfold axisInSlab
  rcases hd.lt_or_lt with hneg | hpos
  · have h21 : (maxc - p1c) / dirc ≤ (minc - p1c) / dirc :=
      div_le_div_of_nonpos_of_le hneg.le (by linarith)
    rw [min_eq_right h21, max_eq_left h21]
    rw [le_div_iff_of_neg hneg, div_le_iff_of_neg hneg]
    constructor
    · rintro ⟨u, v⟩
      constructor <;> nlinarith
    · rintro ⟨u, v⟩
      constructor <;> nlinarith
  · have h12 : (minc - p1c) / dirc ≤ (maxc - p1c) / dirc := by
      rw [div_le_div_iff_of_pos_right hpos]
      linarith
    rw [min_eq_left h12, max_eq_right h12]
    rw [le_div_iff₀ hpos, div_le_iff₀ hpos]
    constructor
    · rintro ⟨u, v⟩
      constructor <;> nlinarith
    · rintro ⟨u, v⟩
      constructor <;> nlinarith

lemma slabAxisStep_some {p1c dirc minc maxc a b a' b' : ℚ}
    (hd : axisCond dirc) (hbox : minc ≤ maxc)
    (h : slabAxisStep p1c dirc minc maxc (a, b) = some (a', b')) (t : ℚ) :
    (a' ≤ t ∧ t ≤ b') ↔ (a ≤ t ∧ t ≤ b ∧ axisInSlab p1c dirc minc maxc t) := by
  unfold slabAxisStep at h
  by_cases hdeg : |dirc| < eps
  · rw [if_pos hdeg] at h
    have hd0 : dirc = 0 := by
      rcases hd with h0 | hge
      · exact h0
      · exact absurd hdeg (not_lt.mpr hge)
    by_cases hout : p1c < minc ∨ maxc < p1c
    · rw [if_pos hout] at h
      cases h
    · rw [if_neg hout] at h
      rw [Option.some_inj, Prod.mk.injEq] at h
      obtain ⟨ha, hb⟩ := h
      subst ha
      subst hb
      push_neg at hout
      unfold axisInSlab
      rw [hd0]
      simp only [mul_zero, add_zero]
      constructor
      · rintro ⟨u, v⟩
        exact ⟨u, v, hout.1, hout.2⟩
      · rintro ⟨u, v, -, -⟩
        exact ⟨u, v⟩
  · rw [if_neg hdeg] at h
    have hne : dirc ≠ 0 := by
      intro h0
      rw [h0] at hdeg
      exact hdeg (by norm_num [eps])
    rw [slabClip_eq] at h
    by_cases hlt : min b (max ((minc - p1c) / dirc) ((maxc - p1c) / dirc)) <
        max a (min ((minc - p1c) / dirc) ((maxc - p1c) / dirc))
    · rw [if_pos hlt] at h
      cases h
    · rw [if_neg hlt] at h
      rw [Option.some_inj, Prod.mk.injEq] at h
      obtain ⟨ha, hb⟩ := h
      subst ha
      subst hb
      rw [max_le_iff, le_min_iff]
      rw [← axis_param_iff hne hbox p1c t]
      constructor
      · rintro ⟨⟨u1, u2⟩, v1, v2⟩
        exact ⟨u1, v1, u2, v2⟩
      · rintro ⟨u1, v1, u2, v2⟩
        exact ⟨⟨u1, u2⟩, v1, v2⟩

lemma slabAxisStep_none {p1c dirc minc maxc a b : ℚ}
    (hd : axisCond dirc) (hbox : minc ≤ maxc)
    (h : slabAxisStep p1c dirc minc maxc (a, b) = none) (t : ℚ) :
    ¬(a ≤ t ∧ t ≤ b ∧ axisInSlab p1c dirc minc maxc t) := by
  rintro ⟨hat, htb, hax⟩
  unfold slabAxisStep at h
  by_cases hdeg : |dirc| < eps
  · rw [if_pos hdeg] at h
    have hd0 : dirc = 0 := by
      rcases hd with h0 | hge
      · exact h0
      · exact absurd hdeg (not_lt.mpr hge)
    unfold axisInSlab at hax
    rw [hd0] at hax
    simp only [mul_zero, add_zero] at hax
    by_cases hout : p1c < minc ∨ maxc < p1c
    · rcases hout with ho | ho <;> linarith [hax.1, hax.2]
    · rw [if_neg hout] at h
      cases h
  · rw [if_neg hdeg] at h
    have hne : dirc ≠ 0 := by
      intro h0
      rw [h0] at hdeg
      exact hdeg (by norm_num [eps])
    rw [slabClip_eq] at h
    by_cases hlt : min b (max ((minc - p1c) / dirc) ((maxc - p1c) / dirc)) <
        max a (min ((minc - p1c) / dirc) ((maxc - p1c) / dirc))
    · obtain ⟨hlo, hhi⟩ := (axis_param_iff hne hbox p1c t).mpr hax
      have h1 : max a (min ((minc - p1c) / dirc) ((maxc - p1c) / dirc)) ≤ t :=
        max_le hat hlo
      have h2 : t ≤ min b (max ((minc - p1c) / dirc) ((maxc - p1c) / dirc)) :=
        le_min htb hhi
      linarith
    · rw [if_neg hlt] at h
      cases h

lemma slabAxisStep_some_le {p1c dirc minc maxc a b a' b' : ℚ}
    (h : slabAxisStep p1c dirc minc maxc (a, b) = some (a', b')) (hab : a ≤ b) :
    a' ≤ b' := by
  unfold slabAxisStep at h
  by_cases hdeg : |dirc| < eps
  · rw [if_pos hdeg] at h
    by_cases hout : p1c < minc ∨ maxc < p1c
    · rw [if_pos hout] at h
      cases h
    · rw [if_neg hout] at h
      rw [Option.some_inj, Prod.mk.injEq] at h
      obtain ⟨ha, hb⟩ := h
      subst ha
      subst hb
      exact hab
  · rw [if_neg hdeg, slabClip_eq] at h
    by_cases hlt : min b (max ((minc - p1c) / dirc) ((maxc - p1c) / dirc)) <
        max a (min ((minc - p1c) / dirc) ((maxc - p1c) / dirc))
    · rw [if_pos hlt] at h
      cases h
    · rw [if_neg hlt] at h
      rw [Option.some_inj, Prod.mk.injEq] at h
      obtain ⟨ha, hb⟩ := h
      subst ha
      subst hb
      exact not_lt.mp hlt

lemma inBox_segPoint_iff (p1 p2 mn mx : Point3) (t : ℚ) :
    inBox (segPoint p1 p2 t) mn mx ↔
      (axisInSlab p1.x (p2.x - p1.x) mn.x mx.x t ∧
       axisInSlab p1.y (p2.y - p1.y) mn.y mx.y t ∧
       axisInSlab p1.z (p2.z - p1.z) mn.z mx.z t) := by
  unfold inBox segPoint axisInSlab
  tauto

lemma slab_exact (p1 p2 aabbMin aabbMax : Point3)
    (hwf : boxWf aabbMin aabbMax)
    (hx : axisCond (p2.x - p1.x)) (hy : axisCond (p2.y - p1.y))
    (hz : axisCond (p2.z - p1.z)) :
    lineSegmentIntersectsAABB p1 p2 aabbMin aabbMax = true ↔
      segMeetsBox p1 p2 aabbMin aabbMax := by
  obtain ⟨hwx, hwy, hwz⟩ := hwf
  constructor
  · intro h
    unfold lineSegmentIntersectsAABB at h
    rcases h1 : slabAxisStep p1.x (p2.x - p1.x) aabbMin.x aabbMax.x (0, 1) with _ | tm1
    · rw [h1] at h
      simp at h
    · obtain ⟨a1, b1⟩ := tm1
      simp only [h1, Option.some_bind] at h
      rcases h2 : slabAxisStep p1.y (p2.y - p1.y) aabbMin.y aabbMax.y (a1, b1) with _ | tm2
      · rw [h2] at h
        simp at h
      · obtain ⟨a2, b2⟩ := tm2
        simp only [h2, Option.some_bind] at h
        rcases h3 : slabAxisStep p1.z (p2.z - p1.z) aabbMin.z aabbMax.z (a2, b2) with _ | tm3
        · rw [h3] at h
          simp at h
        · obtain ⟨a3, b3⟩ := tm3
          have le1 : a1 ≤ b1 := slabAxisStep_some_le h1 (by norm_num)
          have le2 : a2 ≤ b2 := slabAxisStep_some_le h2 le1
          have le3 : a3 ≤ b3 := slabAxisStep_some_le h3 le2
          have hz' := (slabAxisStep_some hz hwz h3 a3).mp ⟨le_refl a3, le3⟩
          have hy' := (slabAxisStep_some hy hwy h2 a3).mp ⟨hz'.1, hz'.2.1⟩
          have hx' := (slabAxisStep_some hx hwx h1 a3).mp ⟨hy'.1, hy'.2.1⟩
          exact ⟨a3, hx'.1, hx'.2.1,
            (inBox_segPoint_iff p1 p2 aabbMin aabbMax a3).mpr
              ⟨hx'.2.2, hy'.2.2, hz'.2.2⟩⟩
  · rintro ⟨t, h0, h1t, hin⟩
    obtain ⟨ax, ay, az⟩ := (inBox_segPoint_iff p1 p2 aabbMin aabbMax t).mp hin
    unfold lineSegmentIntersectsAABB
    rcases h1 : slabAxisStep p1.x (p2.x - p1.x) aabbMin.x aabbMax.x (0, 1) with _ | tm1
    · exact absurd ⟨h0, h1t, ax⟩ (slabAxisStep_none hx hwx h1 t)
    · obtain ⟨a1, b1⟩ := tm1
      have m1 := (slabAxisStep_some hx hwx h1 t).mpr ⟨h0, h1t, ax⟩
      rcases h2 : slabAxisStep p1.y (p2.y - p1.y) aabbMin.y aabbMax.y (a1, b1) with _ | tm2
      · exact absurd ⟨m1.1, m1.2, ay⟩ (slabAxisStep_none hy hwy h2 t)
      · obtain ⟨a2, b2⟩ := tm2
        have m2 := (slabAxisStep_some hy hwy h2 t).mpr ⟨m1.1, m1.2, ay⟩
        rcases h3 : slabAxisStep p1.z (p2.z - p1.z) aabbMin.z aabbMax.z (a2, b2) with _ | tm3
        · exact absurd ⟨m2.1, m2.2, az⟩ (slabAxisStep_none hz hwz h3 t)
        · simp [h1, h2, h3, Option.some_bind]

lemma slab_degenerate (p mn mx : Point3) :
    lineSegmentIntersectsAABB p p mn mx = true ↔ inBox p mn mx := by
  have heps : |(0:ℚ)| < eps := by norm_num [eps]
  have key : lineSegmentIntersectsAABB p p mn mx = true ↔
      (¬(p.x < mn.x ∨ mx.x < p.x) ∧ ¬(p.y < mn.y ∨ mx.y < p.y) ∧
        ¬(p.z < mn.z ∨ mx.z < p.z)) := by
    simp only [lineSegmentIntersectsAABB, slabAxisStep, sub_self, if_pos heps]
    by_cases h1 : p.x < mn.x ∨ mx.x < p.x <;>
      by_cases h2 : p.y < mn.y ∨ mx.y < p.y <;>
        by_cases h3 : p.z < mn.z ∨ mx.z < p.z <;>
          simp [h1, h2, h3]
  rw [key]
  unfold inBox
  push_neg
  tauto

/-- C1 (amended): for every box with component-wise min ≤ max and every
segment whose direction components are each either exactly zero or at least
the code's epsilon (1e-8) in magnitude, the slab test returns true iff the
closed segment shares a point with the closed box (boundary contact counts);
and for a degenerate segment (p1 = p2) it coincides with the point-in-box
test unconditionally. -/
theorem lineSegmentIntersectsAABB_exact :
    (∀ p1 p2 aabbMin aabbMax : Point3, boxWf aabbMin aabbMax →
      axisCond (p2.x - p1.x) → axisCond (p2.y - p1.y) → axisCond (p2.z - p1.z) →
      (lineSegmentIntersectsAABB p1 p2 aabbMin aabbMax = true ↔
        segMeetsBox p1 p2 aabbMin aabbMax)) ∧
    (∀ p mn mx : Point3,
      lineSegmentIntersectsAABB p p mn mx = true ↔ inBox p mn mx) :=
  ⟨slab_exact, slab_degenerate⟩

/-- C1 amended witness: the exactness iff instantiated at spec scenario 3,
and the degenerate point-in-box equivalence at a concrete point. -/
theorem lineSegmentIntersectsAABB_exact_witness :
    (lineSegmentIntersectsAABB ⟨0,0,0⟩ ⟨3,3,3⟩ ⟨2,2,2⟩ ⟨5,5,5⟩ = true ↔
      segMeetsBox ⟨0,0,0⟩ ⟨3,3,3⟩ ⟨2,2,2⟩ ⟨5,5,5⟩) ∧
    (lineSegmentIntersectsAABB ⟨1,1,1⟩ ⟨1,1,1⟩ ⟨0,0,0⟩ ⟨2,2,2⟩ = true ↔
      inBox ⟨1,1,1⟩ ⟨0,0,0⟩ ⟨2,2,2⟩) :=
  ⟨lineSegmentIntersectsAABB_exact.1 ⟨0,0,0⟩ ⟨3,3,3⟩ ⟨2,2,2⟩ ⟨5,5,5⟩
      (by norm_num [boxWf])
      (by norm_num [axisCond, eps, abs_of_pos])
      (by norm_num [axisCond, eps, abs_of_pos])
      (by norm_num [axisCond, eps, abs_of_pos]),
    lineSegmentIntersectsAABB_exact.2 ⟨1,1,1⟩ ⟨0,0,0⟩ ⟨2,2,2⟩⟩

/-- C1 counterexample: with a tiny but nonzero x-direction (1e-9, below the
code's 1e-8 epsilon) the epsilon branch misclassifies the axis as degenerate:
the segment from the origin to (1e-9, 0, 0) meets the well-formed box
[(5e-10, 0, 0), (1, 1, 1)] at t = 1/2 (on its boundary face), yet the slab
test returns false — refuting the unconditional iff of the claim. -/
theorem lineSegmentIntersectsAABB_epsilon_counterexample :
    boxWf ⟨1/2000000000, 0, 0⟩ ⟨1, 1, 1⟩ ∧
    segMeetsBox ⟨0,0,0⟩ ⟨1/1000000000, 0, 0⟩ ⟨1/2000000000, 0, 0⟩ ⟨1, 1, 1⟩ ∧
    lineSegmentIntersectsAABB ⟨0,0,0⟩ ⟨1/1000000000, 0, 0⟩
      ⟨1/2000000000, 0, 0⟩ ⟨1, 1, 1⟩ = false := by
  refine ⟨by norm_num [boxWf],
    ⟨1/2, by norm_num, by norm_num, by norm_num [inBox, segPoint]⟩, ?_⟩
  norm_num [lineSegmentIntersectsAABB, slabAxisStep, slabClip, eps, abs_of_pos]
